import Mathlib

/-!
# Shallow embedding of `smemo` (explicit session memoization)

This file embeds the core of `src/smemo/__init__.py` in Lean 4:

* Python values that appear as arguments and cached results are modelled by
  `PyVal`; mutable containers (`PyVal.list`) carry an object identity so that
  reference sharing versus deep copying is observable.
* Exceptions are modelled by `PyExc` (kind, message, and whether a traceback
  is attached).  A standard exception instance is truthy in Python, so the
  `if entry[1]:` test of `_gc_func` is modelled by `Option.isSome`.
* Python dicts are modelled by association lists with dict update semantics
  (`alSet` replaces an existing key in place, `alDel` removes it).
* The key derivation `Session._key` is modelled both as a computation in an
  exception monad (`Session.keyE`, which mirrors the `try:/except TypeError:`
  control flow literally, with `pickle.dumps` abstracted as a deterministic
  total serialisation on this value universe) and as the total function
  `Session.keyT` it provably equals.
* A `Session` with its optional parent chain is `Sess`; its operations
  (`get_cache`, `simple_get_cache`, `cache`, `cache_exc`, `invalidate`,
  `invalidate_all`, `nocache`) mirror the Python methods.  The `assert
  self._parent` in `cache`/`cache_exc` is modelled by returning `none`
  (an `AssertionError`).
* The wrappers produced by `_gc_func` and `_gc0_func` are `gcCall` and
  `gc0Call`, specialised to plain `Session` receivers (for which `pre_call`
  and `simple_pre_call` return the session itself) and to bodies that do not
  mutate the session (pure bindings).  They report whether the underlying
  function body ran, so that "the body is invoked at most once" is statable.
-/

/-- A Python value, as used for arguments and cached results.

`list` is the mutable, unhashable container; it carries an object id so that
aliasing (two references to one object) is distinguishable from an
equal-valued deep copy.  `tuple` (of ints), `int`, `str`, `none` and `bool`
are hashable and immutable. -/
inductive PyVal : Type where
  | none : PyVal
  | bool (b : Bool) : PyVal
  | int (n : Int) : PyVal
  | str (s : String) : PyVal
  | tuple (elems : List Int) : PyVal
  | list (objId : Nat) (elems : List Int) : PyVal
deriving DecidableEq, Repr

/-- `hash(v)` succeeds on this value exactly when this is `true`; on a
`list` Python raises `TypeError`. -/
def hashableV : PyVal → Bool
  | .list _ _ => false
  | _ => true

/-- A Python exception: its class name, message, and whether a traceback
object is currently attached (`exc.__traceback__ is not None`). -/
structure PyExc : Type where
  kind : String
  msg : String
  tb : Bool
deriving DecidableEq, Repr

/-- The `TypeError` raised by `hash` on an unhashable value. -/
def typeError : PyExc := ⟨"TypeError", "unhashable type", true⟩

/-- The `AssertionError` raised by `assert self._parent`. -/
def assertionError : PyExc := ⟨"AssertionError", "", true⟩

/-- A cached entry, Python's `ResType = (value, exception-or-None)`.
`Session.cache` stores `(val, None)`; `Session.cache_exc` stores
`(None, exc)`.  A `ResType` is a 2-tuple and hence always truthy. -/
structure Entry : Type where
  val : PyVal
  exc : Option PyExc
deriving DecidableEq, Repr

/-- A binding identity: the wrapped callable.  `noArg` records the arity
class chosen at wrap time (`_no_arg`), fixed for the binding's lifetime. -/
structure Func : Type where
  id : Nat
  noArg : Bool
deriving DecidableEq, Repr

/-- Keyword arguments: the items of a Python `dict`, i.e. name/value pairs
(names are unique in an actual dict; theorems assume `Nodup` where the
uniqueness matters). -/
abbrev KwList : Type := List (String × PyVal)

/-! ## Association lists with Python dict semantics -/

/-- `d.get(k)` / `d[k]`. -/
def alGet {κ β : Type} [DecidableEq κ] (k : κ) : List (κ × β) → Option β
  | [] => Option.none
  | p :: t => if p.1 = k then some p.2 else alGet k t

/-- `d[k] = v`: replace in place, or append a fresh binding. -/
def alSet {κ β : Type} [DecidableEq κ] (k : κ) (v : β) :
    List (κ × β) → List (κ × β)
  | [] => [(k, v)]
  | p :: t => if p.1 = k then (k, v) :: t else p :: alSet k v t

/-- `d.pop(k, None)`: remove the binding if present. -/
def alDel {κ β : Type} [DecidableEq κ] (k : κ) :
    List (κ × β) → List (κ × β)
  | [] => []
  | p :: t => if p.1 = k then t else p :: alDel k t

theorem alGet_alSet_self {κ β : Type} [DecidableEq κ] (k : κ) (v : β)
    (l : List (κ × β)) : alGet k (alSet k v l) = some v := by
  induction l with
  | nil => simp [alGet, alSet]
  | cons p t ih =>
      by_cases h : p.1 = k
      · simp [alGet, alSet, h]
      · simp [alGet, alSet, h, ih]

theorem alGet_alSet_ne {κ β : Type} [DecidableEq κ] (k k' : κ) (v : β)
    (l : List (κ × β)) (h : k ≠ k') :
    alGet k' (alSet k v l) = alGet k' l := by
  induction l with
  | nil => simp [alGet, alSet, h]
  | cons p t ih =>
      by_cases hp : p.1 = k
      · simp [alGet, alSet, hp, h]
      · simp only [alSet, if_neg hp, alGet]
        by_cases hk : p.1 = k'
        · simp [hk]
        · simp [hk, ih]

theorem alGet_alDel_self {κ β : Type} [DecidableEq κ] (k : κ)
    (l : List (κ × β)) (hnd : (l.map Prod.fst).Nodup) :
    alGet k (alDel k l) = Option.none := by
  induction l with
  | nil => simp [alGet, alDel]
  | cons p t ih =>
      simp only [List.map_cons, List.nodup_cons] at hnd
      by_cases h : p.1 = k
      · subst h
        cases hget : alGet p.1 t with
        | none => simp [alDel, hget]
        | some v =>
            exfalso
            apply hnd.1
            clear ih hnd
            induction t with
            | nil => simp [alGet] at hget
            | cons q u ihq =>
                simp only [alGet] at hget
                by_cases hq : q.1 = p.1
                · simp [hq]
                · simp only [if_neg hq] at hget
                  simp [ihq hget]
      · simp [alDel, alGet, h, ih hnd.2]

/-- `alGet` on a list filtered by a predicate on the key. -/
theorem alGet_filter {κ β : Type} [DecidableEq κ] (p : κ → Bool) (k : κ)
    (l : List (κ × β)) :
    alGet k (l.filter (fun q => p q.1)) =
      if p k then alGet k l else Option.none := by
  induction l with
  | nil => simp [alGet]
  | cons q t ih =>
      rw [List.filter_cons]
      by_cases hp : p q.1
      · simp only [hp, if_true]
        by_cases hq : q.1 = k
        · subst hq
          simp [alGet, hp]
        · simp only [alGet, if_neg hq]
          exact ih
      · simp only [hp, if_false, Bool.false_eq_true]
        by_cases hq : q.1 = k
        · subst hq
          rw [ih]
          simp [alGet, hp]
        · simp only [alGet, if_neg hq]
          exact ih

/-! ## Key derivation (`Session._key`) -/

/-- One component of a derived key: either the value itself (hashable case)
or the `(PICKLED, pickle.dumps(x))` pair.  `pickle.dumps` is abstracted as a
deterministic, injective serialisation of this value universe, so the bytes
are represented by the serialised value; the `PICKLED` sentinel makes the
two shapes unmistakable, which the two constructors model. -/
inductive ArgsKey : Type where
  | direct (v : List PyVal) : ArgsKey
  | pickled (v : List PyVal) : ArgsKey
deriving DecidableEq, Repr

/-- Like `ArgsKey`, for the sorted keyword-item tuple. -/
inductive KwKey : Type where
  | direct (v : KwList) : KwKey
  | pickled (v : KwList) : KwKey
deriving DecidableEq, Repr

/-- The key returned by `Session._key`: `(args, kwlist)`. -/
structure Key : Type where
  argsPart : ArgsKey
  kwPart : KwKey
deriving DecidableEq, Repr

/-- `hash(args)` on a tuple of values: raises `TypeError` iff some element
is unhashable. -/
def pyHashArgs (args : List PyVal) : Except PyExc Unit :=
  if args.all hashableV then .ok () else .error typeError

/-- `hash(kwlist)` on a tuple of `(name, value)` item tuples: the names are
strings (hashable), so this raises `TypeError` iff some value is
unhashable. -/
def pyHashKw (kw : KwList) : Except PyExc Unit :=
  if kw.all (fun p => hashableV p.2) then .ok () else .error typeError

/-- The comparison used by `sorted(kwargs.items())`: Python orders item
tuples by their first component, the argument name; names are unique in a
dict, so the value components are never compared. -/
def kwLE (p q : String × PyVal) : Prop := p.1 ≤ q.1

instance : DecidableRel kwLE := fun p q => inferInstanceAs (Decidable (p.1 ≤ q.1))

instance : IsTotal (String × PyVal) kwLE := ⟨fun p q => le_total p.1 q.1⟩

instance : IsTrans (String × PyVal) kwLE := ⟨fun _ _ _ h h2 => le_trans h h2⟩

/-- `sorted(kwargs.items())`. -/
def sortKw (kw : KwList) : KwList := List.insertionSort kwLE kw

namespace Session

/-- `Session._key`, with the `try:/except TypeError:` control flow made
explicit: any non-`TypeError` escaping `hash` would propagate. -/
def keyE (args : List PyVal) (kwargs : KwList) : Except PyExc Key := do
  let argsPart ← match pyHashArgs args with
    | .ok _ => pure (ArgsKey.direct args)
    | .error e =>
        if e.kind = "TypeError" then pure (ArgsKey.pickled args)
        else Except.error e
  let kwlist := sortKw kwargs
  let kwPart ← match pyHashKw kwlist with
    | .ok _ => pure (KwKey.direct kwlist)
    | .error e =>
        if e.kind = "TypeError" then pure (KwKey.pickled kwlist)
        else Except.error e
  pure ⟨argsPart, kwPart⟩

/-- The total function `keyE` computes. -/
def keyT (args : List PyVal) (kwargs : KwList) : Key :=
  ⟨if args.all hashableV then ArgsKey.direct args else ArgsKey.pickled args,
   if (sortKw kwargs).all (fun p => hashableV p.2)
     then KwKey.direct (sortKw kwargs) else KwKey.pickled (sortKw kwargs)⟩

theorem keyE_eq_ok (args : List PyVal) (kwargs : KwList) :
    keyE args kwargs = .ok (keyT args kwargs) := by
  unfold keyE keyT pyHashArgs pyHashKw typeError
  by_cases ha : args.all hashableV <;>
    by_cases hk : (sortKw kwargs).all (fun p => hashableV p.2) <;>
      simp [ha, hk, bind, Except.bind, pure, Except.pure]

end Session

/-! ## Sessions -/

/-- The mutable state a `Session` owns: the `_disabled` flag, the general
two-level cache `_cache`, the zero-argument fast-path `_simple_cache`, and
the `_restrict` allowlist. -/
structure SessState : Type where
  disabled : Bool
  cache : List (Func × List (Key × Entry))
  simpleCache : List (Func × PyVal)
  restrict : Option (List Func)
deriving DecidableEq, Repr

/-- The state of a freshly constructed `Session()`. -/
def SessState.empty : SessState := ⟨false, [], [], Option.none⟩

/-- `Session._parent_only`: `self._restrict is not None and func not in
self._restrict`. -/
def SessState.parentOnly (st : SessState) (f : Func) : Bool :=
  match st.restrict with
  | Option.none => false
  | some r => decide (f ∉ r)

/-- `Session._cache_store`. -/
def SessState.cacheStore (st : SessState) (f : Func) (args : List PyVal)
    (kwargs : KwList) (entry : Entry) : SessState :=
  if st.disabled then st
  else if f.noArg then
    { st with simpleCache := alSet f entry.val st.simpleCache }
  else
    let inner := (alGet f st.cache).getD []
    { st with cache := alSet f (alSet (Session.keyT args kwargs) entry inner) st.cache }

/-- The local-store part of `Session.get_cache`: `ret = None; if not
self._parent_only(func) and func in self._cache: ret =
self._cache[func].get(self._key(args, kwargs))`. -/
def SessState.localLookup (st : SessState) (f : Func) (args : List PyVal)
    (kw : KwList) : Option Entry :=
  if st.parentOnly f then Option.none
  else (alGet f st.cache).bind (alGet (Session.keyT args kw))

/-- The local part of `Session.simple_get_cache` in the parented case:
`ret = MISSING; if not self._parent_only(func) and func in
self._simple_cache: ret = self._simple_cache[func]`. -/
def SessState.simpleLocal (st : SessState) (f : Func) : Option PyVal :=
  if st.parentOnly f then Option.none else alGet f st.simpleCache

/-- `Session.invalidate`, which touches only the session's own stores (the
source checks neither `_parent_only` nor the parent here). -/
def SessState.invalidateLocal (st : SessState) (f : Func) (args : List PyVal)
    (kw : KwList) : SessState :=
  if f.noArg then
    { st with simpleCache := alDel f st.simpleCache }
  else
    match alGet f st.cache with
    | Option.none => st
    | some inner =>
        { st with cache := alSet f (alDel (Session.keyT args kw) inner) st.cache }

/-- A `Session` together with its chain of (plain `Session`) parents.
`root` is a session constructed with `parent=None`. -/
inductive Sess : Type where
  | root (st : SessState) : Sess
  | child (st : SessState) (parent : Sess) : Sess
deriving DecidableEq, Repr

namespace Sess

/-- The session's own state. -/
def st : Sess → SessState
  | .root s => s
  | .child s _ => s

/-- Replace the session's own state, keeping the parent link. -/
def withSt : Sess → SessState → Sess
  | .root _, s => .root s
  | .child _ p, s => .child s p

/-- `Session.cache`: forward to the parent if `_parent_only`, else store
locally; `none` models the `AssertionError` of `assert self._parent`. -/
def cache : Sess → Func → PyVal → List PyVal → KwList → Option Sess
  | .root s, f, v, args, kw =>
      if s.parentOnly f then Option.none
      else some (.root (s.cacheStore f args kw ⟨v, Option.none⟩))
  | .child s p, f, v, args, kw =>
      if s.parentOnly f then (cache p f v args kw).map (.child s ·)
      else some (.child (s.cacheStore f args kw ⟨v, Option.none⟩) p)

/-- `Session.cache_exc`: stores `(None, exc)`; same forwarding as `cache`. -/
def cache_exc : Sess → Func → PyExc → List PyVal → KwList → Option Sess
  | .root s, f, e, args, kw =>
      if s.parentOnly f then Option.none
      else some (.root (s.cacheStore f args kw ⟨PyVal.none, some e⟩))
  | .child s p, f, e, args, kw =>
      if s.parentOnly f then (cache_exc p f e args kw).map (.child s ·)
      else some (.child (s.cacheStore f args kw ⟨PyVal.none, some e⟩) p)

/-- `Session.get_cache`: the local result is returned when it is not `None`
(a stored entry is a 2-tuple, never `None`), otherwise the parent is
consulted when one exists. -/
def get_cache : Sess → Func → List PyVal → KwList → Option Entry
  | .root s, f, args, kw => s.localLookup f args kw
  | .child s p, f, args, kw =>
      match s.localLookup f args kw with
      | some e => some e
      | Option.none => get_cache p f args kw

/-- `Session.simple_get_cache`.  With no parent the source returns
`self._simple_cache.get(func, MISSING)` directly (without consulting
`_parent_only`); with a parent, a local value distinct from `MISSING` is
returned and only a genuine miss defers to the parent.  `Option.none`
models `MISSING`. -/
def simple_get_cache : Sess → Func → Option PyVal
  | .root s, f => alGet f s.simpleCache
  | .child s p, f =>
      match s.simpleLocal f with
      | some v => some v
      | Option.none => simple_get_cache p f

/-- `Session.invalidate`: operates on the session's own stores only. -/
def invalidate (s : Sess) (f : Func) (args : List PyVal) (kw : KwList) :
    Sess :=
  s.withSt (s.st.invalidateLocal f args kw)

/-- `Session.invalidate_all`.  `pers` is the process-wide
`PERSISTENT_FUNCS` registry.  With a binding, pop it from both stores;
without one, delete every key not in the registry (the loop over
`set(self._cache)` is rendered as a filter on keys). -/
def invalidate_all (pers : List Func) (s : Sess) (f? : Option Func) : Sess :=
  match f? with
  | some f =>
      s.withSt { s.st with
        cache := alDel f s.st.cache,
        simpleCache := alDel f s.st.simpleCache }
  | Option.none =>
      s.withSt { s.st with
        cache := s.st.cache.filter (fun q => decide (q.1 ∈ pers)),
        simpleCache := s.st.simpleCache.filter (fun q => decide (q.1 ∈ pers)) }

/-- The session's `_disabled` flag. -/
def disabled (s : Sess) : Bool := s.st.disabled

/-- Set the session's `_disabled` flag. -/
def setDisabled (s : Sess) (b : Bool) : Sess :=
  s.withSt { s.st with disabled := b }

end Sess

/-- `Session.nocache()` used as `with session.nocache(): body`.  The
generator saves `old_val`, sets `_disabled = True`, yields, and assigns
`_disabled = old_val` on the line after the `yield`.  There is no
`try/finally`: when the body raises, `contextlib` throws the exception at
the `yield`, the generator does not catch it, and the restoring assignment
never executes. -/
def nocacheRun (s : Sess) (body : Sess → Sess × Except PyExc PyVal) :
    Sess × Except PyExc PyVal :=
  let oldVal := s.disabled
  match body (s.setDisabled true) with
  | (s2, .ok v) => (s2.setDisabled oldVal, .ok v)
  | (s2, .error e) => (s2, .error e)

/-! ## The wrapped callables (`_gc_func`, `_gc0_func`) -/

/-- `copy.deepcopy`: a `list` gets a fresh object id drawn from the
counter; immutable values are returned as-is. -/
def deepcopyV : PyVal → Nat → PyVal × Nat
  | .list _ es, c => (.list c es, c + 1)
  | v, c => (v, c)

instance : DecidableEq (Except PyExc PyVal)
  | .ok a, .ok b =>
      if h : a = b then isTrue (by rw [h])
      else isFalse (by intro hc; cases hc; exact h rfl)
  | .ok _, .error _ => isFalse (by intro hc; cases hc)
  | .error _, .ok _ => isFalse (by intro hc; cases hc)
  | .error a, .error b =>
      if h : a = b then isTrue (by rw [h])
      else isFalse (by intro hc; cases hc; exact h rfl)

/-- The observable result of one invocation of a wrapped binding: the
updated session, the returned value or raised exception, the fresh-id
counter, and whether the underlying function body was executed. -/
structure GcResult : Type where
  sess : Sess
  res : Except PyExc PyVal
  fresh : Nat
  bodyRan : Bool
deriving DecidableEq, Repr

/-- `_gc_func`'s wrapper `_func(session, *args, **kwargs)`, invoked on a
plain `Session` (whose `pre_call` returns the session itself, a truthy
object) with a pure body.  On a hit the 2-tuple `entry` is truthy; a stored
exception (standard exceptions are truthy) has its `__traceback__` cleared
and is re-raised — the re-clearing on every later hit makes leaving the
stored copy unchanged observationally equivalent.  On a miss the body runs;
an exception is recorded via `cache_exc` and re-raised, a value is recorded
via `cache` and returned, deep-copied unless `ref`. -/
def gcCall (f : Func) (body : List PyVal → KwList → Except PyExc PyVal)
    (ref : Bool) (s : Sess) (fresh : Nat) (args : List PyVal) (kw : KwList) :
    GcResult :=
  match s.get_cache f args kw with
  | some entry =>
      match entry.exc with
      | some e => ⟨s, .error { e with tb := false }, fresh, false⟩
      | Option.none => ⟨s, .ok entry.val, fresh, false⟩
  | Option.none =>
      match body args kw with
      | .error exc =>
          match s.cache_exc f exc args kw with
          | some s2 => ⟨s2, .error exc, fresh, true⟩
          | Option.none => ⟨s, .error assertionError, fresh, true⟩
      | .ok ret =>
          match s.cache f ret args kw with
          | some s2 =>
              if ref then ⟨s2, .ok ret, fresh, true⟩
              else
                let c := deepcopyV ret fresh
                ⟨s2, .ok c.1, c.2, true⟩
          | Option.none => ⟨s, .error assertionError, fresh, true⟩

/-- `_gc0_func`'s wrapper `_func(session)`, invoked on a plain `Session`
(whose `simple_pre_call` returns the session itself) with a pure body.  A
hit returns the stored value directly (no deep copy on this path).  On a
miss there is no `try/except`: an exception from the body propagates with
nothing cached; a value is cached via `session.cache(_func, ret, (), {})`
and returned, deep-copied unless `ref`. -/
def gc0Call (f : Func) (bodyv : Except PyExc PyVal) (ref : Bool)
    (s : Sess) (fresh : Nat) : GcResult :=
  match s.simple_get_cache f with
  | some v => ⟨s, .ok v, fresh, false⟩
  | Option.none =>
      match bodyv with
      | .error e => ⟨s, .error e, fresh, true⟩
      | .ok ret =>
          match s.cache f ret [] [] with
          | some s2 =>
              if ref then ⟨s2, .ok ret, fresh, true⟩
              else
                let c := deepcopyV ret fresh
                ⟨s2, .ok c.1, c.2, true⟩
          | Option.none => ⟨s, .error assertionError, fresh, true⟩

/-- What a cache hit delivers for a recorded outcome: the stored value, or
the stored exception re-raised with its traceback cleared. -/
def renderOutcome : Except PyExc PyVal → Except PyExc PyVal
  | .ok v => .ok v
  | .error e => .error { e with tb := false }

/-- The entry recorded for one call outcome: `(ret, None)` for a value,
`(None, exc)` for an exception. -/
def storedEntry (r : Except PyExc PyVal) : Entry :=
  match r with
  | .ok v => ⟨v, Option.none⟩
  | .error e => ⟨PyVal.none, some e⟩

/-- What a cache hit on `entry` delivers in `_gc_func`. -/
def renderEntry (entry : Entry) : Except PyExc PyVal :=
  match entry.exc with
  | some e => .error { e with tb := false }
  | Option.none => .ok entry.val

theorem renderEntry_storedEntry (r : Except PyExc PyVal) :
    renderEntry (storedEntry r) = renderOutcome r := by
  cases r <;> rfl

/-! ## Helper lemmas about session operations -/

theorem parentOnly_none (st : SessState) (f : Func)
    (hr : st.restrict = Option.none) : st.parentOnly f = false := by
  unfold SessState.parentOnly
  rw [hr]

theorem st_withSt (s : Sess) (st2 : SessState) : (s.withSt st2).st = st2 := by
  cases s <;> rfl

theorem localLookup_cacheStore (st : SessState) (f : Func) (args : List PyVal)
    (kw : KwList) (entry : Entry) (hr : st.restrict = Option.none)
    (hd : st.disabled = false) (hn : f.noArg = false) :
    (st.cacheStore f args kw entry).localLookup f args kw = some entry := by
  simp [SessState.cacheStore, SessState.localLookup, SessState.parentOnly,
    hr, hd, hn, alGet_alSet_self]

theorem cache_eq_of_restrict_none (s : Sess) (f : Func) (v : PyVal)
    (args : List PyVal) (kw : KwList) (hr : s.st.restrict = Option.none) :
    s.cache f v args kw =
      some (s.withSt (s.st.cacheStore f args kw ⟨v, Option.none⟩)) := by
  cases s with
  | root st => simp [Sess.cache, Sess.withSt, Sess.st, parentOnly_none st f hr]
  | child st p => simp [Sess.cache, Sess.withSt, Sess.st, parentOnly_none st f hr]

theorem cache_exc_eq_of_restrict_none (s : Sess) (f : Func) (e : PyExc)
    (args : List PyVal) (kw : KwList) (hr : s.st.restrict = Option.none) :
    s.cache_exc f e args kw =
      some (s.withSt (s.st.cacheStore f args kw ⟨PyVal.none, some e⟩)) := by
  cases s with
  | root st => simp [Sess.cache_exc, Sess.withSt, Sess.st, parentOnly_none st f hr]
  | child st p => simp [Sess.cache_exc, Sess.withSt, Sess.st, parentOnly_none st f hr]

theorem get_cache_withSt (s : Sess) (st2 : SessState) (f : Func)
    (args : List PyVal) (kw : KwList) (entry : Entry)
    (h : st2.localLookup f args kw = some entry) :
    (s.withSt st2).get_cache f args kw = some entry := by
  cases s <;> simp [Sess.withSt, Sess.get_cache, h]

theorem gcCall_hit (f : Func) (body : List PyVal → KwList → Except PyExc PyVal)
    (ref : Bool) (s : Sess) (fresh : Nat) (args : List PyVal) (kw : KwList)
    (entry : Entry) (h : s.get_cache f args kw = some entry) :
    gcCall f body ref s fresh args kw = ⟨s, renderEntry entry, fresh, false⟩ := by
  obtain ⟨v, exc⟩ := entry
  unfold gcCall renderEntry
  rw [h]
  cases exc <;> rfl

theorem gcCall_miss (f : Func) (body : List PyVal → KwList → Except PyExc PyVal)
    (ref : Bool) (s : Sess) (fresh : Nat) (args : List PyVal) (kw : KwList)
    (hr : s.st.restrict = Option.none) (hd : s.st.disabled = false)
    (hn : f.noArg = false) (hmiss : s.get_cache f args kw = Option.none) :
    (gcCall f body ref s fresh args kw).bodyRan = true ∧
    (gcCall f body ref s fresh args kw).sess.get_cache f args kw =
      some (storedEntry (body args kw)) := by
  cases hb : body args kw with
  | error e =>
      have hce := cache_exc_eq_of_restrict_none s f e args kw hr
      simp only [gcCall, hmiss, hb, hce]
      exact ⟨trivial,
        get_cache_withSt _ _ _ _ _ _ (localLookup_cacheStore _ _ _ _ _ hr hd hn)⟩
  | ok v =>
      have hc := cache_eq_of_restrict_none s f v args kw hr
      have hl := get_cache_withSt s (s.st.cacheStore f args kw ⟨v, Option.none⟩)
        f args kw ⟨v, Option.none⟩ (localLookup_cacheStore _ _ _ _ _ hr hd hn)
      by_cases hrf : ref = true <;>
        simp [gcCall, hmiss, hb, hc, hrf, storedEntry, hl]

/-! ## Uniqueness of the sorted keyword-item list -/

/-- Strict companion of `kwLE`: sorted lists over distinct names are
sorted for this antisymmetric relation, which pins them down uniquely. -/
def kwLT (p q : String × PyVal) : Prop := p.1 < q.1 ∨ p = q

instance : IsAntisymm (String × PyVal) kwLT :=
  ⟨fun p q hpq hqp => by
    rcases hpq with h | h
    · rcases hqp with h2 | h2
      · exact absurd h2 (lt_asymm h)
      · exact h2.symm
    · exact h⟩

theorem sorted_kwLT_of_sorted_nodup (l : KwList)
    (hs : List.Sorted kwLE l) (hnd : (l.map Prod.fst).Nodup) :
    List.Sorted kwLT l := by
  have hne : l.Pairwise (fun p q : String × PyVal => p.1 ≠ q.1) := by
    rw [List.Nodup, List.pairwise_map] at hnd
    exact hnd
  exact (hs.and hne).imp (fun h => Or.inl (lt_of_le_of_ne h.1 h.2))

theorem sortKw_eq_of_perm (kw1 kw2 : KwList)
    (hnd : (kw1.map Prod.fst).Nodup) (hp : kw1.Perm kw2) :
    sortKw kw1 = sortKw kw2 := by
  have hperm : (sortKw kw1).Perm (sortKw kw2) :=
    (List.perm_insertionSort kwLE kw1).trans
      (hp.trans (List.perm_insertionSort kwLE kw2).symm)
  have hnd1 : ((sortKw kw1).map Prod.fst).Nodup :=
    (((List.perm_insertionSort kwLE kw1).map Prod.fst).nodup_iff).mpr hnd
  have hnd2 : ((sortKw kw2).map Prod.fst).Nodup :=
    (((List.perm_insertionSort kwLE kw2).map Prod.fst).nodup_iff).mpr
      ((hp.map Prod.fst).nodup_iff.mp hnd)
  exact List.eq_of_perm_of_sorted hperm
    (sorted_kwLT_of_sorted_nodup _ (List.sorted_insertionSort kwLE kw1) hnd1)
    (sorted_kwLT_of_sorted_nodup _ (List.sorted_insertionSort kwLE kw2) hnd2)

/-! ## Claim C1 -/

/-- C1: for a binding wrapped on the general path and a plain `Session`
(no restriction, caching enabled), calling the binding twice with identical
positional and keyword arguments runs the underlying body at most once —
the second call never runs it — and when the first call computed the
outcome, the second call returns the outcome the first call recorded: the
stored value, or the stored exception re-raised with its traceback
cleared. -/
theorem memoize_twice_body_at_most_once
    (f : Func) (body : List PyVal → KwList → Except PyExc PyVal) (ref : Bool)
    (s : Sess) (fresh : Nat) (args : List PyVal) (kw : KwList)
    (hr : s.st.restrict = Option.none) (hd : s.st.disabled = false)
    (hn : f.noArg = false) :
    (gcCall f body ref (gcCall f body ref s fresh args kw).sess
      (gcCall f body ref s fresh args kw).fresh args kw).bodyRan = false ∧
    (s.get_cache f args kw = Option.none →
      (gcCall f body ref s fresh args kw).bodyRan = true ∧
      (gcCall f body ref (gcCall f body ref s fresh args kw).sess
        (gcCall f body ref s fresh args kw).fresh args kw).res =
          renderOutcome (body args kw)) := by
  cases hc : s.get_cache f args kw with
  | some entry =>
      have h1 := gcCall_hit f body ref s fresh args kw entry hc
      refine ⟨?_, ?_⟩
      · simp only [h1]
      · intro h
        exact Option.noConfusion h
  | none =>
      obtain ⟨h1, h2⟩ := gcCall_miss f body ref s fresh args kw hr hd hn hc
      have h3 := gcCall_hit f body ref _ (gcCall f body ref s fresh args kw).fresh
        args kw _ h2
      refine ⟨?_, fun _ => ⟨h1, ?_⟩⟩
      · simp only [h3]
      · simp only [h3]
        exact renderEntry_storedEntry (body args kw)

/-- Witness for `memoize_twice_body_at_most_once`: a binding returning 7,
called twice on a fresh plain session. -/
theorem memoize_twice_body_at_most_once_witness :
    ((Sess.root SessState.empty).st.restrict = Option.none ∧
     (Sess.root SessState.empty).st.disabled = false ∧
     (Func.mk 1 false).noArg = false) ∧
    ((gcCall ⟨1, false⟩ (fun _ _ => .ok (.int 7)) false
        (gcCall ⟨1, false⟩ (fun _ _ => .ok (.int 7)) false
          (.root SessState.empty) 0 [.int 3] []).sess
        (gcCall ⟨1, false⟩ (fun _ _ => .ok (.int 7)) false
          (.root SessState.empty) 0 [.int 3] []).fresh [.int 3] []).bodyRan
        = false ∧
     ((Sess.root SessState.empty).get_cache ⟨1, false⟩ [.int 3] []
          = Option.none →
       (gcCall ⟨1, false⟩ (fun _ _ => .ok (.int 7)) false
          (.root SessState.empty) 0 [.int 3] []).bodyRan = true ∧
       (gcCall ⟨1, false⟩ (fun _ _ => .ok (.int 7)) false
          (gcCall ⟨1, false⟩ (fun _ _ => .ok (.int 7)) false
            (.root SessState.empty) 0 [.int 3] []).sess
          (gcCall ⟨1, false⟩ (fun _ _ => .ok (.int 7)) false
            (.root SessState.empty) 0 [.int 3] []).fresh [.int 3] []).res =
         renderOutcome ((fun _ _ => .ok (.int 7)) [PyVal.int 3] ([] : KwList)))) :=
  ⟨⟨rfl, rfl, rfl⟩,
    memoize_twice_body_at_most_once ⟨1, false⟩ (fun _ _ => .ok (.int 7)) false
      (.root SessState.empty) 0 [.int 3] [] rfl rfl rfl⟩

/-! ## Claim C2 -/

/-- Python object identity on this value universe: two values are the same
mutable object exactly when they are the same list object (same id).
Mutating through one reference is visible through the other precisely in
that case. -/
def isAliasedWith : PyVal → PyVal → Bool
  | .list i _, .list j _ => decide (i = j)
  | _, _ => false

/-- C2 counterexample: a `ref=False` binding whose body builds the list
object with id 0.  The first call caches that object and hands back a deep
copy (fresh id 1), but the second call — a cache hit — returns the stored
object itself: the value handed to the caller is aliased with the cached
value, so mutating it would change the cache, contradicting the claim that
every returned value (also on a cache hit) is a deep copy. -/
theorem copy_on_hit_counterexample :
    (gcCall ⟨1, false⟩ (fun _ _ => .ok (.list 0 [1, 2])) false
        (.root SessState.empty) 1 [] []).sess.get_cache ⟨1, false⟩ [] [] =
      some ⟨.list 0 [1, 2], Option.none⟩ ∧
    (gcCall ⟨1, false⟩ (fun _ _ => .ok (.list 0 [1, 2])) false
        (.root SessState.empty) 1 [] []).res = .ok (.list 1 [1, 2]) ∧
    (gcCall ⟨1, false⟩ (fun _ _ => .ok (.list 0 [1, 2])) false
        (gcCall ⟨1, false⟩ (fun _ _ => .ok (.list 0 [1, 2])) false
          (.root SessState.empty) 1 [] []).sess
        (gcCall ⟨1, false⟩ (fun _ _ => .ok (.list 0 [1, 2])) false
          (.root SessState.empty) 1 [] []).fresh [] []).res =
      .ok (.list 0 [1, 2]) ∧
    isAliasedWith (.list 0 [1, 2]) (.list 0 [1, 2]) = true := by
  refine ⟨?_, ?_, ?_, ?_⟩ <;> rfl

/-- C2 (amended): with `ref=False` on the general path, a freshly computed
value is deep-copied before being handed to the caller while the cache
keeps the original object, but a later cache hit hands back the stored
object itself — only the fresh-computation path copies. -/
theorem copy_on_fresh_reference_on_hit
    (f : Func) (body : List PyVal → KwList → Except PyExc PyVal)
    (s : Sess) (fresh : Nat) (args : List PyVal) (kw : KwList) (v : PyVal)
    (hr : s.st.restrict = Option.none) (hd : s.st.disabled = false)
    (hn : f.noArg = false) (hmiss : s.get_cache f args kw = Option.none)
    (hv : body args kw = .ok v) :
    (gcCall f body false s fresh args kw).res = .ok (deepcopyV v fresh).1 ∧
    (gcCall f body false s fresh args kw).sess.get_cache f args kw =
      some ⟨v, Option.none⟩ ∧
    (gcCall f body false (gcCall f body false s fresh args kw).sess
      (gcCall f body false s fresh args kw).fresh args kw).res = .ok v := by
  have hc := cache_eq_of_restrict_none s f v args kw hr
  have hl := get_cache_withSt s (s.st.cacheStore f args kw ⟨v, Option.none⟩)
    f args kw ⟨v, Option.none⟩ (localLookup_cacheStore _ _ _ _ _ hr hd hn)
  have hfirst : gcCall f body false s fresh args kw =
      ⟨s.withSt (s.st.cacheStore f args kw ⟨v, Option.none⟩),
        .ok (deepcopyV v fresh).1, (deepcopyV v fresh).2, true⟩ := by
    simp [gcCall, hmiss, hv, hc]
  have hsec := gcCall_hit f body false
    (s.withSt (s.st.cacheStore f args kw ⟨v, Option.none⟩))
    (deepcopyV v fresh).2 args kw ⟨v, Option.none⟩ hl
  refine ⟨?_, ?_, ?_⟩
  · simp only [hfirst]
  · simp only [hfirst]
    exact hl
  · simp only [hfirst, hsec]
    rfl

/-- Witness for `copy_on_fresh_reference_on_hit`: the body returns the
list object with id 5; the fresh return is the copy with id 9, the hit
return is the stored object with id 5. -/
theorem copy_on_fresh_reference_on_hit_witness :
    ((Sess.root SessState.empty).st.restrict = Option.none ∧
     (Sess.root SessState.empty).st.disabled = false ∧
     (Func.mk 2 false).noArg = false ∧
     (Sess.root SessState.empty).get_cache ⟨2, false⟩ [] [] = Option.none ∧
     (fun (_ : List PyVal) (_ : KwList) =>
       (.ok (.list 5 [7]) : Except PyExc PyVal)) [] [] = .ok (.list 5 [7])) ∧
    ((gcCall ⟨2, false⟩ (fun _ _ => .ok (.list 5 [7])) false
        (.root SessState.empty) 9 [] []).res =
      .ok (deepcopyV (.list 5 [7]) 9).1 ∧
     (gcCall ⟨2, false⟩ (fun _ _ => .ok (.list 5 [7])) false
        (.root SessState.empty) 9 [] []).sess.get_cache ⟨2, false⟩ [] [] =
      some ⟨.list 5 [7], Option.none⟩ ∧
     (gcCall ⟨2, false⟩ (fun _ _ => .ok (.list 5 [7])) false
        (gcCall ⟨2, false⟩ (fun _ _ => .ok (.list 5 [7])) false
          (.root SessState.empty) 9 [] []).sess
        (gcCall ⟨2, false⟩ (fun _ _ => .ok (.list 5 [7])) false
          (.root SessState.empty) 9 [] []).fresh [] []).res =
      .ok (.list 5 [7])) :=
  ⟨⟨rfl, rfl, rfl, rfl, rfl⟩,
    copy_on_fresh_reference_on_hit ⟨2, false⟩ (fun _ _ => .ok (.list 5 [7]))
      (.root SessState.empty) 9 [] [] (.list 5 [7]) rfl rfl rfl rfl rfl⟩

/-! ## Claim C3 -/

/-- C3: on the general path with a plain `Session`, a body that raises `e`
has the exception recorded as the cached outcome `(None, e)` and re-raised
to the caller; a second call with the same arguments does not run the body
and re-raises an exception of the same kind and message whose traceback
was cleared before the re-raise. -/
theorem exception_cached_and_reraised
    (f : Func) (body : List PyVal → KwList → Except PyExc PyVal) (ref : Bool)
    (s : Sess) (fresh : Nat) (args : List PyVal) (kw : KwList) (e : PyExc)
    (hr : s.st.restrict = Option.none) (hd : s.st.disabled = false)
    (hn : f.noArg = false) (hmiss : s.get_cache f args kw = Option.none)
    (he : body args kw = .error e) :
    (gcCall f body ref s fresh args kw).res = .error e ∧
    (gcCall f body ref s fresh args kw).bodyRan = true ∧
    (gcCall f body ref s fresh args kw).sess.get_cache f args kw =
      some ⟨PyVal.none, some e⟩ ∧
    (gcCall f body ref (gcCall f body ref s fresh args kw).sess
      (gcCall f body ref s fresh args kw).fresh args kw).bodyRan = false ∧
    (gcCall f body ref (gcCall f body ref s fresh args kw).sess
      (gcCall f body ref s fresh args kw).fresh args kw).res =
      .error ⟨e.kind, e.msg, false⟩ := by
  have hce := cache_exc_eq_of_restrict_none s f e args kw hr
  have hl := get_cache_withSt s
    (s.st.cacheStore f args kw ⟨PyVal.none, some e⟩) f args kw
    ⟨PyVal.none, some e⟩ (localLookup_cacheStore _ _ _ _ _ hr hd hn)
  have hfirst : gcCall f body ref s fresh args kw =
      ⟨s.withSt (s.st.cacheStore f args kw ⟨PyVal.none, some e⟩),
        .error e, fresh, true⟩ := by
    simp [gcCall, hmiss, he, hce]
  have hsec := gcCall_hit f body ref
    (s.withSt (s.st.cacheStore f args kw ⟨PyVal.none, some e⟩))
    fresh args kw ⟨PyVal.none, some e⟩ hl
  refine ⟨?_, ?_, ?_, ?_, ?_⟩ <;> simp only [hfirst, hsec]
  · exact hl
  · rfl

/-- Witness for `exception_cached_and_reraised`: a binding that always
raises `RuntimeError("hello")`, called twice. -/
theorem exception_cached_and_reraised_witness :
    ((Sess.root SessState.empty).st.restrict = Option.none ∧
     (Sess.root SessState.empty).st.disabled = false ∧
     (Func.mk 3 false).noArg = false ∧
     (Sess.root SessState.empty).get_cache ⟨3, false⟩ [.int 1] []
       = Option.none ∧
     (fun (_ : List PyVal) (_ : KwList) =>
       (.error ⟨"RuntimeError", "hello", true⟩ : Except PyExc PyVal))
         [.int 1] [] = .error ⟨"RuntimeError", "hello", true⟩) ∧
    ((gcCall ⟨3, false⟩ (fun _ _ => .error ⟨"RuntimeError", "hello", true⟩)
        false (.root SessState.empty) 0 [.int 1] []).res =
      .error ⟨"RuntimeError", "hello", true⟩ ∧
     (gcCall ⟨3, false⟩ (fun _ _ => .error ⟨"RuntimeError", "hello", true⟩)
        false (.root SessState.empty) 0 [.int 1] []).bodyRan = true ∧
     (gcCall ⟨3, false⟩ (fun _ _ => .error ⟨"RuntimeError", "hello", true⟩)
        false (.root SessState.empty) 0 [.int 1] []).sess.get_cache
          ⟨3, false⟩ [.int 1] [] =
      some ⟨PyVal.none, some ⟨"RuntimeError", "hello", true⟩⟩ ∧
     (gcCall ⟨3, false⟩ (fun _ _ => .error ⟨"RuntimeError", "hello", true⟩)
        false
        (gcCall ⟨3, false⟩ (fun _ _ => .error ⟨"RuntimeError", "hello", true⟩)
          false (.root SessState.empty) 0 [.int 1] []).sess
        (gcCall ⟨3, false⟩ (fun _ _ => .error ⟨"RuntimeError", "hello", true⟩)
          false (.root SessState.empty) 0 [.int 1] []).fresh
        [.int 1] []).bodyRan = false ∧
     (gcCall ⟨3, false⟩ (fun _ _ => .error ⟨"RuntimeError", "hello", true⟩)
        false
        (gcCall ⟨3, false⟩ (fun _ _ => .error ⟨"RuntimeError", "hello", true⟩)
          false (.root SessState.empty) 0 [.int 1] []).sess
        (gcCall ⟨3, false⟩ (fun _ _ => .error ⟨"RuntimeError", "hello", true⟩)
          false (.root SessState.empty) 0 [.int 1] []).fresh
        [.int 1] []).res = .error ⟨"RuntimeError", "hello", false⟩) :=
  ⟨⟨rfl, rfl, rfl, rfl, rfl⟩,
    exception_cached_and_reraised ⟨3, false⟩
      (fun _ _ => .error ⟨"RuntimeError", "hello", true⟩) false
      (.root SessState.empty) 0 [.int 1] [] ⟨"RuntimeError", "hello", true⟩
      rfl rfl rfl rfl rfl⟩

/-! ## Claim C4 -/

/-- C4 (behaviour at the failing input): while the `nocache()` scope is
active the disabled flag suppresses stores (`_cache_store` is a no-op) and
lookups still succeed, and a normally exiting scope restores the flag; but
when the body of the scope raises, the generator-based context manager —
which has no `try/finally` around its `yield` — never reaches the
restoring assignment, so the session is left with `_disabled = True` even
though it was `False` before entering the scope.  This contradicts the
claim that the prior value is restored on every exit path. -/
theorem nocache_flag_not_restored_on_raise :
    (Sess.root SessState.empty).disabled = false ∧
    ((nocacheRun (.root SessState.empty)
        (fun s => (s, .ok (.int 1)))).1).disabled = false ∧
    ((nocacheRun (.root SessState.empty)
        (fun s => (s, .error ⟨"RuntimeError", "boom", true⟩))).1).disabled
      = true ∧
    (SessState.empty.cacheStore ⟨1, false⟩ [] [] ⟨.int 7, Option.none⟩
      ).cache ≠ [] ∧
    (({ SessState.empty with disabled := true } : SessState).cacheStore
      ⟨1, false⟩ [] [] ⟨.int 7, Option.none⟩).cache = [] := by
  refine ⟨rfl, rfl, rfl, ?_, rfl⟩
  intro h
  exact List.noConfusion h

/-! ## Claim C5 -/

/-- C5 counterexample: a parent holding a cached entry for binding 1 at key
`(1,)`, and a child constructed with the empty restriction set (so binding
1 is restricted away).  `invalidate` on the child is not forwarded to the
parent: it leaves the child exactly as it was, and the parent's entry is
still found afterwards — whereas the claim says all invalidate operations
for a restricted-away binding are forwarded to the parent (which would
have removed the entry). -/
theorem invalidate_not_forwarded_counterexample :
    Sess.invalidate
        (.child ⟨false, [], [], some []⟩
          (.root ⟨false,
            [(⟨1, false⟩, [(Session.keyT [.int 1] [], ⟨.int 9, Option.none⟩)])],
            [], Option.none⟩))
        ⟨1, false⟩ [.int 1] [] =
      .child ⟨false, [], [], some []⟩
        (.root ⟨false,
          [(⟨1, false⟩, [(Session.keyT [.int 1] [], ⟨.int 9, Option.none⟩)])],
          [], Option.none⟩) ∧
    (Sess.invalidate
        (.child ⟨false, [], [], some []⟩
          (.root ⟨false,
            [(⟨1, false⟩, [(Session.keyT [.int 1] [], ⟨.int 9, Option.none⟩)])],
            [], Option.none⟩))
        ⟨1, false⟩ [.int 1] []).get_cache ⟨1, false⟩ [.int 1] [] =
      some ⟨.int 9, Option.none⟩ := by
  exact ⟨rfl, rfl⟩

/-- C5 (amended): for a session with a restriction set and a binding not
in it, `cache` and `cache_exc` never touch the session's own store and are
forwarded to the parent; `invalidate`, however, is not forwarded — it
operates only on the session's own store and leaves the parent
untouched. -/
theorem restricted_cache_forwarded_invalidate_local
    (stc : SessState) (p : Sess) (f : Func) (v : PyVal) (e : PyExc)
    (args : List PyVal) (kw : KwList) (hro : stc.parentOnly f = true) :
    Sess.cache (.child stc p) f v args kw =
      (p.cache f v args kw).map (.child stc ·) ∧
    Sess.cache_exc (.child stc p) f e args kw =
      (p.cache_exc f e args kw).map (.child stc ·) ∧
    Sess.invalidate (.child stc p) f args kw =
      .child (stc.invalidateLocal f args kw) p := by
  refine ⟨?_, ?_, rfl⟩ <;>
    simp [Sess.cache, Sess.cache_exc, hro]

/-- Witness for `restricted_cache_forwarded_invalidate_local` at a child
with the empty restriction set over a fresh parent. -/
theorem restricted_cache_forwarded_invalidate_local_witness :
    (SessState.mk false [] [] (some [])).parentOnly ⟨1, false⟩ = true ∧
    (Sess.cache (.child ⟨false, [], [], some []⟩ (.root SessState.empty))
        ⟨1, false⟩ (.int 4) [.int 1] [] =
      ((Sess.root SessState.empty).cache ⟨1, false⟩ (.int 4) [.int 1] []).map
        (.child ⟨false, [], [], some []⟩ ·) ∧
     Sess.cache_exc (.child ⟨false, [], [], some []⟩ (.root SessState.empty))
        ⟨1, false⟩ ⟨"RuntimeError", "x", true⟩ [.int 1] [] =
      ((Sess.root SessState.empty).cache_exc ⟨1, false⟩
          ⟨"RuntimeError", "x", true⟩ [.int 1] []).map
        (.child ⟨false, [], [], some []⟩ ·) ∧
     Sess.invalidate (.child ⟨false, [], [], some []⟩ (.root SessState.empty))
        ⟨1, false⟩ [.int 1] [] =
      .child ((SessState.mk false [] [] (some [])).invalidateLocal
          ⟨1, false⟩ [.int 1] []) (.root SessState.empty)) :=
  ⟨rfl, restricted_cache_forwarded_invalidate_local
    ⟨false, [], [], some []⟩ (.root SessState.empty) ⟨1, false⟩ (.int 4)
    ⟨"RuntimeError", "x", true⟩ [.int 1] [] rfl⟩

/-! ## Claim C6 -/

/-- C6: `invalidate_all` with a binding removes every entry of that binding
from both the general and the fast-path store regardless of whether it is
in the persistence registry; `invalidate_all` with no binding removes the
entries of every binding not in the registry and retains the entries of
every registered binding.  (The `Nodup` hypotheses hold for any state built
from Python dicts.) -/
theorem invalidate_all_drops_and_retains
    (pers : List Func) (s : Sess) (f g : Func)
    (hnd : (s.st.cache.map Prod.fst).Nodup)
    (hnds : (s.st.simpleCache.map Prod.fst).Nodup) :
    (alGet f (Sess.invalidate_all pers s (some f)).st.cache = Option.none ∧
     alGet f (Sess.invalidate_all pers s (some f)).st.simpleCache
       = Option.none) ∧
    (alGet g (Sess.invalidate_all pers s Option.none).st.cache =
       (if g ∈ pers then alGet g s.st.cache else Option.none) ∧
     alGet g (Sess.invalidate_all pers s Option.none).st.simpleCache =
       (if g ∈ pers then alGet g s.st.simpleCache else Option.none)) := by
  unfold Sess.invalidate_all
  refine ⟨⟨?_, ?_⟩, ?_, ?_⟩ <;> rw [st_withSt]
  · exact alGet_alDel_self f s.st.cache hnd
  · exact alGet_alDel_self f s.st.simpleCache hnds
  · rw [alGet_filter (fun k => decide (k ∈ pers)) g s.st.cache]
    by_cases hg : g ∈ pers <;> simp [hg]
  · rw [alGet_filter (fun k => decide (k ∈ pers)) g s.st.simpleCache]
    by_cases hg : g ∈ pers <;> simp [hg]

/-- Witness for `invalidate_all_drops_and_retains`: a root session caching
entries for the persistent binding 1 (in both stores) and the
non-persistent binding 2; binding 1 is dropped by the targeted form and
retained by the untargeted form, binding 2 is dropped by the untargeted
form. -/
theorem invalidate_all_drops_and_retains_witness :
    (((Sess.root ⟨false,
        [(⟨1, false⟩, [(Session.keyT [] [], ⟨.int 1, Option.none⟩)]),
         (⟨2, false⟩, [(Session.keyT [] [], ⟨.int 2, Option.none⟩)])],
        [(⟨1, true⟩, .int 3)], Option.none⟩).st.cache.map Prod.fst).Nodup ∧
     ((Sess.root ⟨false,
        [(⟨1, false⟩, [(Session.keyT [] [], ⟨.int 1, Option.none⟩)]),
         (⟨2, false⟩, [(Session.keyT [] [], ⟨.int 2, Option.none⟩)])],
        [(⟨1, true⟩, .int 3)], Option.none⟩).st.simpleCache.map
          Prod.fst).Nodup) ∧
    ((alGet ⟨1, false⟩ (Sess.invalidate_all [⟨1, false⟩, ⟨1, true⟩]
        (Sess.root ⟨false,
          [(⟨1, false⟩, [(Session.keyT [] [], ⟨.int 1, Option.none⟩)]),
           (⟨2, false⟩, [(Session.keyT [] [], ⟨.int 2, Option.none⟩)])],
          [(⟨1, true⟩, .int 3)], Option.none⟩)
        (some ⟨1, false⟩)).st.cache = Option.none ∧
      alGet ⟨1, false⟩ (Sess.invalidate_all [⟨1, false⟩, ⟨1, true⟩]
        (Sess.root ⟨false,
          [(⟨1, false⟩, [(Session.keyT [] [], ⟨.int 1, Option.none⟩)]),
           (⟨2, false⟩, [(Session.keyT [] [], ⟨.int 2, Option.none⟩)])],
          [(⟨1, true⟩, .int 3)], Option.none⟩)
        (some ⟨1, false⟩)).st.simpleCache = Option.none) ∧
     (alGet ⟨1, false⟩ (Sess.invalidate_all [⟨1, false⟩, ⟨1, true⟩]
        (Sess.root ⟨false,
          [(⟨1, false⟩, [(Session.keyT [] [], ⟨.int 1, Option.none⟩)]),
           (⟨2, false⟩, [(Session.keyT [] [], ⟨.int 2, Option.none⟩)])],
          [(⟨1, true⟩, .int 3)], Option.none⟩)
        Option.none).st.cache =
        (if (Func.mk 1 false) ∈ [Func.mk 1 false, Func.mk 1 true] then
          alGet ⟨1, false⟩ (Sess.root ⟨false,
            [(⟨1, false⟩, [(Session.keyT [] [], ⟨.int 1, Option.none⟩)]),
             (⟨2, false⟩, [(Session.keyT [] [], ⟨.int 2, Option.none⟩)])],
            [(⟨1, true⟩, .int 3)], Option.none⟩).st.cache
         else Option.none) ∧
      alGet ⟨1, false⟩ (Sess.invalidate_all [⟨1, false⟩, ⟨1, true⟩]
        (Sess.root ⟨false,
          [(⟨1, false⟩, [(Session.keyT [] [], ⟨.int 1, Option.none⟩)]),
           (⟨2, false⟩, [(Session.keyT [] [], ⟨.int 2, Option.none⟩)])],
          [(⟨1, true⟩, .int 3)], Option.none⟩)
        Option.none).st.simpleCache =
        (if (Func.mk 1 false) ∈ [Func.mk 1 false, Func.mk 1 true] then
          alGet ⟨1, false⟩ (Sess.root ⟨false,
            [(⟨1, false⟩, [(Session.keyT [] [], ⟨.int 1, Option.none⟩)]),
             (⟨2, false⟩, [(Session.keyT [] [], ⟨.int 2, Option.none⟩)])],
            [(⟨1, true⟩, .int 3)], Option.none⟩).st.simpleCache
         else Option.none))) :=
  ⟨⟨by decide, by decide⟩,
    invalidate_all_drops_and_retains [⟨1, false⟩, ⟨1, true⟩]
      (Sess.root ⟨false,
        [(⟨1, false⟩, [(Session.keyT [] [], ⟨.int 1, Option.none⟩)]),
         (⟨2, false⟩, [(Session.keyT [] [], ⟨.int 2, Option.none⟩)])],
        [(⟨1, true⟩, .int 3)], Option.none⟩)
      ⟨1, false⟩ ⟨1, false⟩ (by decide) (by decide)⟩

/-! ## Claim C7 -/

/-- C7: for every positional-argument tuple and every keyword-argument
dict (argument names are unique in a dict), `Session._key` returns some
key and never raises: the `except TypeError:` handlers route unhashable
arguments through the pickled fallback. -/
theorem key_derivation_never_raises
    (args : List PyVal) (kwargs : KwList)
    (_hnd : (kwargs.map Prod.fst).Nodup) :
    ∃ k : Key, Session.keyE args kwargs = .ok k :=
  ⟨Session.keyT args kwargs, Session.keyE_eq_ok args kwargs⟩

/-- Witness for `key_derivation_never_raises` at unhashable positional and
keyword arguments (lists), which take the pickled fallback. -/
theorem key_derivation_never_raises_witness :
    (([("x", PyVal.list 1 [2])] : KwList).map Prod.fst).Nodup ∧
    ∃ k : Key,
      Session.keyE [PyVal.list 0 [1]] [("x", PyVal.list 1 [2])] = .ok k :=
  ⟨by decide,
    key_derivation_never_raises [PyVal.list 0 [1]] [("x", PyVal.list 1 [2])]
      (by decide)⟩

/-! ## Claim C8 -/

/-- C8: two keyword-argument dicts containing exactly the same
name-to-value pairs (in any insertion order; names unique as in a dict)
yield equal keys for the same positional-argument tuple, because
`Session._key` sorts the items by name. -/
theorem key_kwargs_order_independent
    (args : List PyVal) (kw1 kw2 : KwList)
    (hnd : (kw1.map Prod.fst).Nodup) (hp : kw1.Perm kw2) :
    Session.keyT args kw1 = Session.keyT args kw2 := by
  unfold Session.keyT
  rw [sortKw_eq_of_perm kw1 kw2 hnd hp]

/-- Witness for `key_kwargs_order_independent` on two insertion orders of
the same two keyword arguments. -/
theorem key_kwargs_order_independent_witness :
    ((([("b", PyVal.int 1), ("a", PyVal.int 2)] : KwList).map
        Prod.fst).Nodup ∧
     ([("b", PyVal.int 1), ("a", PyVal.int 2)] : KwList).Perm
       [("a", PyVal.int 2), ("b", PyVal.int 1)]) ∧
    Session.keyT [.int 0] [("b", PyVal.int 1), ("a", PyVal.int 2)] =
      Session.keyT [.int 0] [("a", PyVal.int 2), ("b", PyVal.int 1)] :=
  ⟨⟨by decide, by decide⟩,
    key_kwargs_order_independent [.int 0]
      [("b", PyVal.int 1), ("a", PyVal.int 2)]
      [("a", PyVal.int 2), ("b", PyVal.int 1)] (by decide) (by decide)⟩

/-! ## Claim C9 -/

/-- C9: a session with a parent consults the parent in `get_cache` and
`simple_get_cache` exactly when the binding's key is genuinely absent from
its local store; any locally stored outcome — including an empty or falsy
one such as a cached `None` — is returned from the local store, and the
result then does not depend on the parent at all. -/
theorem parent_consulted_only_on_genuine_miss
    (stc : SessState) (p : Sess) (f : Func) (args : List PyVal)
    (kw : KwList) :
    (∀ entry : Entry, stc.localLookup f args kw = some entry →
      Sess.get_cache (.child stc p) f args kw = some entry) ∧
    (stc.localLookup f args kw = Option.none →
      Sess.get_cache (.child stc p) f args kw = p.get_cache f args kw) ∧
    (∀ v : PyVal, stc.simpleLocal f = some v →
      Sess.simple_get_cache (.child stc p) f = some v) ∧
    (stc.simpleLocal f = Option.none →
      Sess.simple_get_cache (.child stc p) f = p.simple_get_cache f) := by
  refine ⟨fun entry h => ?_, fun h => ?_, fun v h => ?_, fun h => ?_⟩ <;>
    simp [Sess.get_cache, Sess.simple_get_cache, h]

/-- Witness for `parent_consulted_only_on_genuine_miss`: the child locally
caches the falsy outcome `None` for a general binding and for a
zero-argument binding, while the parent holds the different value 5 for
both; the child nevertheless answers `None` from its own store. -/
theorem parent_consulted_only_on_genuine_miss_witness :
    Sess.get_cache
        (.child ⟨false,
            [(⟨1, false⟩,
              [(Session.keyT [] [], ⟨PyVal.none, Option.none⟩)])],
            [(⟨2, true⟩, PyVal.none)], Option.none⟩
          (.root ⟨false,
            [(⟨1, false⟩, [(Session.keyT [] [], ⟨.int 5, Option.none⟩)])],
            [(⟨2, true⟩, .int 5)], Option.none⟩))
        ⟨1, false⟩ [] [] = some ⟨PyVal.none, Option.none⟩ ∧
    Sess.simple_get_cache
        (.child ⟨false,
            [(⟨1, false⟩,
              [(Session.keyT [] [], ⟨PyVal.none, Option.none⟩)])],
            [(⟨2, true⟩, PyVal.none)], Option.none⟩
          (.root ⟨false,
            [(⟨1, false⟩, [(Session.keyT [] [], ⟨.int 5, Option.none⟩)])],
            [(⟨2, true⟩, .int 5)], Option.none⟩))
        ⟨2, true⟩ = some PyVal.none :=
  ⟨(parent_consulted_only_on_genuine_miss
      ⟨false, [(⟨1, false⟩, [(Session.keyT [] [], ⟨PyVal.none, Option.none⟩)])],
        [(⟨2, true⟩, PyVal.none)], Option.none⟩
      (.root ⟨false,
        [(⟨1, false⟩, [(Session.keyT [] [], ⟨.int 5, Option.none⟩)])],
        [(⟨2, true⟩, .int 5)], Option.none⟩)
      ⟨1, false⟩ [] []).1 ⟨PyVal.none, Option.none⟩ (by decide),
   (parent_consulted_only_on_genuine_miss
      ⟨false, [(⟨1, false⟩, [(Session.keyT [] [], ⟨PyVal.none, Option.none⟩)])],
        [(⟨2, true⟩, PyVal.none)], Option.none⟩
      (.root ⟨false,
        [(⟨1, false⟩, [(Session.keyT [] [], ⟨.int 5, Option.none⟩)])],
        [(⟨2, true⟩, .int 5)], Option.none⟩)
      ⟨2, true⟩ [] []).2.2.1 PyVal.none (by decide)⟩

/-! ## Claim C10 -/

theorem simpleStore_eq (st : SessState) (f : Func) (args : List PyVal)
    (kw : KwList) (entry : Entry) (hd : st.disabled = false)
    (hn : f.noArg = true) :
    st.cacheStore f args kw entry =
      { st with simpleCache := alSet f entry.val st.simpleCache } := by
  simp [SessState.cacheStore, hd, hn]

/-- C10: for a zero-argument binding on a plain session (caching enabled,
no restriction), `cache_exc` routes through `_cache_store`'s fast-path
branch, which stores `entry[0]` — that is `None`, not the exception — so
the exception is discarded, and a subsequent invocation of the wrapped
binding is a fast-path hit that returns `None` without running the body
and without raising. -/
theorem cache_exc_zero_arg_discards_exception
    (s : Sess) (f : Func) (e : PyExc) (args : List PyVal) (kw : KwList)
    (bodyv : Except PyExc PyVal) (ref : Bool) (fresh : Nat)
    (hr : s.st.restrict = Option.none) (hd : s.st.disabled = false)
    (hn : f.noArg = true) :
    s.cache_exc f e args kw =
      some (s.withSt { s.st with
        simpleCache := alSet f PyVal.none s.st.simpleCache }) ∧
    (s.withSt { s.st with
        simpleCache := alSet f PyVal.none s.st.simpleCache
      }).simple_get_cache f = some PyVal.none ∧
    gc0Call f bodyv ref
        (s.withSt { s.st with
          simpleCache := alSet f PyVal.none s.st.simpleCache }) fresh =
      ⟨s.withSt { s.st with
          simpleCache := alSet f PyVal.none s.st.simpleCache },
        .ok PyVal.none, fresh, false⟩ := by
  have hstore := simpleStore_eq s.st f args kw ⟨PyVal.none, some e⟩ hd hn
  have hsg : (s.withSt { s.st with
      simpleCache := alSet f PyVal.none s.st.simpleCache
    }).simple_get_cache f = some PyVal.none := by
    cases s with
    | root st =>
        simp [Sess.withSt, Sess.simple_get_cache, alGet_alSet_self]
    | child st p =>
        have hpo : ({ st with
            simpleCache := alSet f PyVal.none st.simpleCache
          } : SessState).parentOnly f = false :=
          parentOnly_none _ f hr
        simp [Sess.withSt, Sess.st, Sess.simple_get_cache,
          SessState.simpleLocal, hpo, alGet_alSet_self]
  refine ⟨?_, hsg, ?_⟩
  · rw [cache_exc_eq_of_restrict_none s f e args kw hr, hstore]
  · simp [gc0Call, hsg]

/-- Witness for `cache_exc_zero_arg_discards_exception`: caching a
`RuntimeError` for a zero-argument binding on a fresh session stores
`None`, and the next invocation returns `None` instead of raising. -/
theorem cache_exc_zero_arg_discards_exception_witness :
    ((Sess.root SessState.empty).st.restrict = Option.none ∧
     (Sess.root SessState.empty).st.disabled = false ∧
     (Func.mk 4 true).noArg = true) ∧
    ((Sess.root SessState.empty).cache_exc ⟨4, true⟩
        ⟨"RuntimeError", "x", true⟩ [] [] =
      some ((Sess.root SessState.empty).withSt
        { (Sess.root SessState.empty).st with
          simpleCache :=
            alSet ⟨4, true⟩ PyVal.none
              (Sess.root SessState.empty).st.simpleCache }) ∧
     ((Sess.root SessState.empty).withSt
        { (Sess.root SessState.empty).st with
          simpleCache :=
            alSet ⟨4, true⟩ PyVal.none
              (Sess.root SessState.empty).st.simpleCache
        }).simple_get_cache ⟨4, true⟩ = some PyVal.none ∧
     gc0Call ⟨4, true⟩ (.error ⟨"RuntimeError", "x", true⟩) false
        ((Sess.root SessState.empty).withSt
          { (Sess.root SessState.empty).st with
            simpleCache :=
              alSet ⟨4, true⟩ PyVal.none
                (Sess.root SessState.empty).st.simpleCache }) 0 =
      ⟨(Sess.root SessState.empty).withSt
          { (Sess.root SessState.empty).st with
            simpleCache :=
              alSet ⟨4, true⟩ PyVal.none
                (Sess.root SessState.empty).st.simpleCache },
        .ok PyVal.none, 0, false⟩) :=
  ⟨⟨rfl, rfl, rfl⟩,
    cache_exc_zero_arg_discards_exception (.root SessState.empty) ⟨4, true⟩
      ⟨"RuntimeError", "x", true⟩ [] []
      (.error ⟨"RuntimeError", "x", true⟩) false 0 rfl rfl rfl⟩
